import Mathlib

/-!
Shallow embedding of the AltTabHide GNOME-Shell extension
(src/alttabhide@koter84.github.com/extension.js, prefs.js, and the
identical-logic variant src/alttabhide@koter84.github.io/extension.js).

The host environment is modelled abstractly:
* the settings store is `Option (List String)`: `none` is a missing or
  uninitialized store, `some H` a store whose `hidden-apps` key holds `H`;
* an application handle (`Shell.App`) exposes only `get_id`;
* a window handle is an arbitrary type `W`, and the host tracker
  `Shell.WindowTracker.get_default().get_window_app` is a function
  `W → Option App` (`none` when no owning application resolves);
* the host `SwitcherList` is modelled by its `icons` array, the ordered
  visual row list, and whether a `removeItem` member of function type is
  present; per the host contract, `removeItem idx` deletes the visual row
  at index `idx` (modelled as `List.eraseIdx` on the row list).

JavaScript truthiness is modelled with `Option`: a missing (`null` /
`undefined`) reference is `none`.  A JavaScript array is always truthy, so
the source condition `this._items && this._items.length > 0` becomes a
presence test followed by a length test.  A thrown `TypeError`
(dereference of an absent reference) is modelled by returning `none` from
a function whose result type is `Option _`.
-/

/-- Application handle: the only member the extension reads is `get_id`. -/
structure App where
  get_id : String
deriving DecidableEq, Repr

/-- Embedding of extension.js lines 76-81: `_getHiddenApps` returns the
`hidden-apps` string list, or `[]` when the settings reference is null. -/
def _getHiddenApps (settings : Option (List String)) : List String :=
  match settings with
  | none => []
  | some hidden => hidden

/-- Embedding of extension.js lines 96-111: `_shouldHideApp`.  Returns
`false` when the hidden list is empty or the app handle is null; otherwise
tests whether the app id is included in the hidden list. -/
def _shouldHideApp (settings : Option (List String)) (app : Option App) : Bool :=
  let hiddenApps := _getHiddenApps settings
  if hiddenApps.length = 0 || app.isNone then
    false
  else
    match app with
    | none => false
    | some a => hiddenApps.contains a.get_id

/-- Embedding of extension.js lines 118-141: `_shouldHideWindow`.  Returns
`false` when the hidden list is empty; otherwise resolves the window to its
owning app via the host tracker, returns `false` when none resolves, and
otherwise tests the app id against the hidden list. -/
def _shouldHideWindow {W : Type} (settings : Option (List String))
    (tracker : W → Option App) (window : W) : Bool :=
  let hiddenApps := _getHiddenApps settings
  if hiddenApps.length = 0 then
    false
  else
    match tracker window with
    | none => false
    | some a => hiddenApps.contains a.get_id

namespace WindowSwitcherPopup

/-- Embedding of extension.js lines 211-223: the override of
`WindowSwitcherPopup._getWindowList` filters the result of the original
routine, keeping the windows `_shouldHideWindow` rejects. -/
def _getWindowList {W : Type} (settings : Option (List String))
    (tracker : W → Option App) (windows : List W) : List W :=
  windows.filter (fun window => !_shouldHideWindow settings tracker window)

end WindowSwitcherPopup

namespace WindowCyclerPopup

/-- Embedding of extension.js lines 229-241: the override of
`WindowCyclerPopup._getWindows`, same filtering of the original result. -/
def _getWindows {W : Type} (settings : Option (List String))
    (tracker : W → Option App) (windows : List W) : List W :=
  windows.filter (fun window => !_shouldHideWindow settings tracker window)

end WindowCyclerPopup

namespace GroupCyclerPopup

/-- Embedding of extension.js lines 247-259: the override of
`GroupCyclerPopup._getWindows`, same filtering of the original result. -/
def _getWindows {W : Type} (settings : Option (List String))
    (tracker : W → Option App) (windows : List W) : List W :=
  windows.filter (fun window => !_shouldHideWindow settings tracker window)

end GroupCyclerPopup

/-- Entry of the app-switcher backing array: an app icon holding a possibly
null app reference.  An array slot may itself be null, hence entries are
`Option AppIcon` in the switcher state below. -/
structure AppIcon where
  app : Option App
deriving DecidableEq, Repr

/-- Host `SwitcherList` as the extension touches it: the `icons` backing
array, the ordered visual row list (a row is identified by its icon), and
whether a callable `removeItem` member is present. -/
structure SwitcherList where
  icons : List (Option AppIcon)
  visualRows : List (Option AppIcon)
  removeItemPresent : Bool
deriving DecidableEq, Repr

/-- Slice of `AppSwitcherPopup` state the override reads and writes:
`this._items` and `this._switcherList`, each possibly absent when the
original `_init` of the host changed shape. -/
structure AppSwitcherState where
  _items : Option (List (Option AppIcon))
  _switcherList : Option SwitcherList
deriving DecidableEq, Repr

/-- Embedding of extension.js lines 177-186, the scan condition: a slot is
marked for removal when the slot is non-null, its `app` is non-null, and the
app id is in the hidden list
(`appIcon && appIcon.app && hiddenApps.includes(appId)`). -/
def iconMarked (hiddenApps : List String) (slot : Option AppIcon) : Bool :=
  match slot with
  | none => false
  | some appIcon =>
    match appIcon.app with
    | none => false
    | some a => hiddenApps.contains a.get_id

/-- Embedding of extension.js lines 176-186: the ascending list of indices
whose items are marked for removal (`indicesToRemove`). -/
def indicesToRemove (hiddenApps : List String)
    (items : List (Option AppIcon)) : List Nat :=
  (List.range items.length).filter (fun i => iconMarked hiddenApps (items.getD i none))

/-- Embedding of one iteration of the removal loop, extension.js lines
189-196: if `this._switcherList` is present and has a callable `removeItem`,
splice the icons array at `idx` and remove the visual row at `idx`;
otherwise do nothing. -/
def spliceStep (st : AppSwitcherState) (idx : Nat) : AppSwitcherState :=
  match st._switcherList with
  | none => st
  | some sl =>
    if sl.removeItemPresent then
      { st with _switcherList := some { sl with
          icons := sl.icons.eraseIdx idx,
          visualRows := sl.visualRows.eraseIdx idx } }
    else
      st

namespace AppSwitcherPopup

/-- Embedding of extension.js lines 155-205: the override of
`AppSwitcherPopup._init` after the original `_init` produced state `st`.
When `this._items` is absent or empty the body is skipped.  Otherwise the
marked indices are collected in ascending order, the removal loop walks them
from last to first (`indicesToRemove.reverse`), and finally `this._items` is
re-pointed at `this._switcherList.icons` — unconditionally, so an absent
`this._switcherList` at that line is a thrown `TypeError`, modelled as
`none`. -/
def _init (hiddenApps : List String) (st : AppSwitcherState) :
    Option AppSwitcherState :=
  match st._items with
  | none => some st
  | some items =>
    if items.length = 0 then
      some st
    else
      let idxs := indicesToRemove hiddenApps items
      let st1 := idxs.reverse.foldl spliceStep st
      match st1._switcherList with
      | none => none
      | some sl => some { st1 with _items := some sl.icons }

end AppSwitcherPopup

/-- Embedding of prefs.js lines 148-158: `_onAppToggled`.  Toggling on
appends the id when absent; toggling off removes every occurrence when
present; otherwise the list is written back unchanged. -/
def _onAppToggled (hiddenApps : List String) (appId : String)
    (isActive : Bool) : List String :=
  if isActive && !hiddenApps.contains appId then
    hiddenApps ++ [appId]
  else if !isActive && hiddenApps.contains appId then
    hiddenApps.filter (fun i => i != appId)
  else
    hiddenApps

/-- Embedding of prefs.js lines 207-217: `_removeHiddenApp` keeps every id
different from `appId` (the trailing checkbox update only touches UI
state). -/
def _removeHiddenApp (hiddenApps : List String) (appId : String) : List String :=
  hiddenApps.filter (fun i => i != appId)

/-! Helper lemmas shared by the claim theorems. -/

/-- Folding index-erasure over successor indices leaves the head intact. -/
theorem foldl_eraseIdx_map_succ {α : Type} (js : List Nat) (a : α) :
    ∀ t : List α,
      (js.map Nat.succ).foldl (fun acc idx => acc.eraseIdx idx) (a :: t)
        = a :: js.foldl (fun acc idx => acc.eraseIdx idx) t := by
  induction js with
  | nil => intro t; rfl
  | cons j js ih =>
    intro t
    simp only [List.map_cons, List.foldl_cons, List.eraseIdx_cons_succ, ih]

/-- Erasing, from the highest index to the lowest, exactly the positions
whose elements satisfy `p` leaves the elements refuting `p`, in order. -/
theorem foldl_eraseIdx_marked {α : Type} (p : α → Bool) (d : α) (l : List α) :
    (((List.range l.length).filter (fun i => p (l.getD i d))).reverse).foldl
      (fun acc idx => acc.eraseIdx idx) l
    = l.filter (fun a => !p a) := by
  induction l with
  | nil => rfl
  | cons a t ih =>
    have hrange : List.range (a :: t).length
        = 0 :: (List.range t.length).map Nat.succ := by
      simpa using List.range_succ_eq_map t.length
    have hcomp : ((fun i => p ((a :: t).getD i d)) ∘ Nat.succ)
        = fun i => p (t.getD i d) := by
      funext i
      simp [Function.comp, List.getD_cons_succ]
    rw [hrange, List.filter_cons, List.filter_map, hcomp, List.getD_cons_zero]
    cases hpa : p a with
    | true =>
      rw [if_pos rfl, List.reverse_cons, ← List.map_reverse, List.foldl_append,
        foldl_eraseIdx_map_succ, ih]
      simp [List.filter_cons, hpa]
    | false =>
      rw [if_neg (by simp), ← List.map_reverse, foldl_eraseIdx_map_succ, ih]
      simp [List.filter_cons, hpa]

/-- Folding the removal loop over a state whose switcher list is present
with a callable `removeItem` erases the walked indices from the icons and
from the visual rows, componentwise. -/
theorem foldl_spliceStep_present (js : List Nat)
    (items : Option (List (Option AppIcon))) :
    ∀ icons visualRows : List (Option AppIcon),
      js.foldl spliceStep ⟨items, some ⟨icons, visualRows, true⟩⟩
        = ⟨items, some ⟨js.foldl (fun acc idx => acc.eraseIdx idx) icons,
                        js.foldl (fun acc idx => acc.eraseIdx idx) visualRows,
                        true⟩⟩ := by
  induction js with
  | nil => intro icons visualRows; rfl
  | cons j js ih =>
    intro icons visualRows
    simp only [List.foldl_cons, spliceStep, if_pos, ih]

/-- Folding the removal loop over a state with no switcher list changes
nothing. -/
theorem foldl_spliceStep_noSwitcher (js : List Nat)
    (items : Option (List (Option AppIcon))) :
    js.foldl spliceStep ⟨items, none⟩ = ⟨items, none⟩ := by
  induction js with
  | nil => rfl
  | cons j js ih => simp only [List.foldl_cons, spliceStep, ih]

/-- Folding the removal loop over a state whose switcher list lacks a
callable `removeItem` changes nothing. -/
theorem foldl_spliceStep_noRemove (js : List Nat)
    (items : Option (List (Option AppIcon)))
    (icons visualRows : List (Option AppIcon)) :
    js.foldl spliceStep ⟨items, some ⟨icons, visualRows, false⟩⟩
      = ⟨items, some ⟨icons, visualRows, false⟩⟩ := by
  induction js with
  | nil => rfl
  | cons j js ih =>
    rw [List.foldl_cons]
    show List.foldl spliceStep (spliceStep _ j) js = _
    rw [show spliceStep ⟨items, some ⟨icons, visualRows, false⟩⟩ j
        = ⟨items, some ⟨icons, visualRows, false⟩⟩ from by
      simp only [spliceStep]
      rw [if_neg (by simp)]]
    exact ih

/-- Nothing is marked against the empty hidden list. -/
theorem iconMarked_nil (slot : Option AppIcon) : iconMarked [] slot = false := by
  cases slot with
  | none => rfl
  | some appIcon =>
    obtain ⟨app⟩ := appIcon
    cases app <;> rfl

/-- Multiplicity after a filter: kept in full when the element satisfies the
predicate, zero otherwise. -/
theorem count_filter_ite {W : Type} [DecidableEq W] (p : W → Bool)
    (l : List W) (w : W) :
    (l.filter p).count w = if p w then l.count w else 0 := by
  cases hp : p w with
  | true =>
    rw [if_pos rfl]
    exact List.count_filter hp
  | false =>
    rw [if_neg (by simp), List.count_eq_zero]
    intro hmem
    rw [List.mem_filter] at hmem
    rw [hmem.2] at hp
    simp at hp

/-! Claim theorems. -/

/-- C1: for every hidden set `H` and candidate id `c`, `_shouldHideApp` on a
non-null app handle with id `c` (and a settings store holding `H`) returns
`true` iff `c` appears in `H`. -/
theorem shouldHideApp_iff_mem (H : List String) (c : String) :
    _shouldHideApp (some H) (some ⟨c⟩) = true ↔ c ∈ H := by
  cases H with
  | nil => simp [_shouldHideApp, _getHiddenApps]
  | cons h t =>
    simp [_shouldHideApp, _getHiddenApps, List.contains, List.elem_iff]

/-- C2: each of the three window-list overrides returns a subsequence of the
original result (hence preserves the relative order of the kept windows; the
original list is untouched, the embedding being pure and the result a fresh
value) whose members are exactly the windows of the original result on which
`_shouldHideWindow` returns `false`, each kept with its full multiplicity;
the three overrides agree. -/
theorem windowList_overrides_filter {W : Type} [DecidableEq W]
    (settings : Option (List String))
    (tracker : W → Option App) (windows : List W) :
    (WindowSwitcherPopup._getWindowList settings tracker windows).Sublist windows
    ∧ (∀ w, w ∈ WindowSwitcherPopup._getWindowList settings tracker windows
        ↔ w ∈ windows ∧ _shouldHideWindow settings tracker w = false)
    ∧ (∀ w, (WindowSwitcherPopup._getWindowList settings tracker windows).count w
        = if _shouldHideWindow settings tracker w then 0 else windows.count w)
    ∧ WindowCyclerPopup._getWindows settings tracker windows
        = WindowSwitcherPopup._getWindowList settings tracker windows
    ∧ GroupCyclerPopup._getWindows settings tracker windows
        = WindowSwitcherPopup._getWindowList settings tracker windows := by
  refine ⟨List.filter_sublist windows, ?_, ?_, rfl, rfl⟩
  · intro w
    simp [WindowSwitcherPopup._getWindowList, List.mem_filter]
  · intro w
    rw [WindowSwitcherPopup._getWindowList, count_filter_ite]
    cases _shouldHideWindow settings tracker w <;> simp

/-- C3: on the shape the original `_init` produces (`_items` aliasing the
switcher-list `icons`, visual rows aligned with icons, `removeItem`
present), the override removes exactly the entries whose app id is in the
hidden set, from both the backing icons array and the visual row list; the
marked indices are scanned in strictly increasing order and processed in
strictly decreasing order; the surviving entries form a subsequence of the
original list, keeping their relative order. -/
theorem appSwitcher_init_filters (hiddenApps : List String)
    (l : List (Option AppIcon)) :
    AppSwitcherPopup._init hiddenApps ⟨some l, some ⟨l, l, true⟩⟩
      = some ⟨some (l.filter (fun slot => !iconMarked hiddenApps slot)),
              some ⟨l.filter (fun slot => !iconMarked hiddenApps slot),
                    l.filter (fun slot => !iconMarked hiddenApps slot), true⟩⟩
    ∧ List.Pairwise (· < ·) (indicesToRemove hiddenApps l)
    ∧ List.Pairwise (· > ·) (indicesToRemove hiddenApps l).reverse
    ∧ (l.filter (fun slot => !iconMarked hiddenApps slot)).Sublist l := by
  have hpw : List.Pairwise (· < ·) (indicesToRemove hiddenApps l) :=
    (List.pairwise_lt_range l.length).filter _
  refine ⟨?_, hpw, ?_, List.filter_sublist l⟩
  · cases l with
    | nil => rfl
    | cons a t =>
      rw [AppSwitcherPopup._init]
      simp only []
      rw [show indicesToRemove hiddenApps (a :: t)
          = (List.range (a :: t).length).filter
              (fun i => iconMarked hiddenApps ((a :: t).getD i none)) from rfl]
      rw [foldl_spliceStep_present, foldl_eraseIdx_marked]
      rfl
  · rw [List.pairwise_reverse]
    exact hpw

/-- C4: a window for which the tracker resolves no owning application is
never hidden: `_shouldHideWindow` returns `false` regardless of the hidden
set. -/
theorem shouldHideWindow_unresolved {W : Type} (settings : Option (List String))
    (tracker : W → Option App) (w : W) (h : tracker w = none) :
    _shouldHideWindow settings tracker w = false := by
  simp only [_shouldHideWindow, h]
  split <;> rfl

/-- Witness for C4 at a concrete tracker resolving no application. -/
theorem shouldHideWindow_unresolved_witness :
    (fun _ : Nat => (none : Option App)) 0 = none
    ∧ _shouldHideWindow (some ["org.gnome.Calculator.desktop"])
        (fun _ : Nat => (none : Option App)) 0 = false :=
  ⟨rfl, shouldHideWindow_unresolved (some ["org.gnome.Calculator.desktop"])
    (fun _ : Nat => none) 0 rfl⟩

/-- C5 (amended): the override skips filtering and returns the state
untouched when `_items` is absent or empty; when `_items` is nonempty and
the switcher list is present but lacks a callable `removeItem`, no entry is
removed but `_items` is re-pointed at the switcher-list `icons` (the
untouched state exactly when the two already coincide); when `_items` is
nonempty and the switcher list is absent, the final re-pointing dereferences
the absent switcher list and the error propagates (result `none`). -/
theorem appSwitcher_init_shape (hiddenApps : List String)
    (st : AppSwitcherState) :
    (st._items = none → AppSwitcherPopup._init hiddenApps st = some st)
    ∧ (st._items = some [] → AppSwitcherPopup._init hiddenApps st = some st)
    ∧ (∀ l sl, st._items = some l → l ≠ [] → st._switcherList = some sl →
        sl.removeItemPresent = false →
        AppSwitcherPopup._init hiddenApps st
          = some { st with _items := some sl.icons })
    ∧ (∀ l, st._items = some l → l ≠ [] → st._switcherList = none →
        AppSwitcherPopup._init hiddenApps st = none) := by
  obtain ⟨items, switcherList⟩ := st
  refine ⟨?_, ?_, ?_, ?_⟩
  · intro h
    subst h
    rfl
  · intro h
    subst h
    rfl
  · rintro l sl rfl hne rfl hri
    obtain ⟨icons, visualRows, removeItemPresent⟩ := sl
    subst hri
    rw [AppSwitcherPopup._init]
    simp only []
    rw [if_neg (by simpa using hne), foldl_spliceStep_noRemove]
  · rintro l rfl hne rfl
    rw [AppSwitcherPopup._init]
    simp only []
    rw [if_neg (by simpa using hne), foldl_spliceStep_noSwitcher]

/-- Witness for C5 (amended) at concrete states for each of its cases. -/
theorem appSwitcher_init_shape_witness :
    AppSwitcherPopup._init [] ⟨none, none⟩ = some ⟨none, none⟩
    ∧ AppSwitcherPopup._init [] ⟨some [], none⟩ = some ⟨some [], none⟩
    ∧ AppSwitcherPopup._init ["a"]
        ⟨some [none], some ⟨[none], [none], false⟩⟩
      = some ⟨some [none], some ⟨[none], [none], false⟩⟩
    ∧ AppSwitcherPopup._init ["a"] ⟨some [none], none⟩ = none :=
  ⟨(appSwitcher_init_shape [] ⟨none, none⟩).1 rfl,
   (appSwitcher_init_shape [] ⟨some [], none⟩).2.1 rfl,
   (appSwitcher_init_shape ["a"] ⟨some [none], some ⟨[none], [none], false⟩⟩).2.2.1
     [none] ⟨[none], [none], false⟩ rfl (by decide) rfl rfl,
   (appSwitcher_init_shape ["a"] ⟨some [none], none⟩).2.2.2
     [none] rfl (by decide) rfl⟩

/-- C5 counterexample: with a nonempty `_items` and an absent
`_switcherList` (a shape mismatch), the wrapper does not leave the state as
the original produced it with no error: the unguarded final re-pointing
dereferences the absent switcher list (modelled `none`), even with an empty
hidden set. -/
theorem appSwitcher_init_shape_counterexample :
    AppSwitcherPopup._init [] ⟨some [none], none⟩ = none
    ∧ AppSwitcherPopup._init [] ⟨some [none], none⟩
        ≠ some ⟨some [none], none⟩ :=
  ⟨rfl, by decide⟩

/-- C6: with a null settings reference, `_getHiddenApps` returns the empty
list, and every filtering decision hides nothing: both predicates return
`false`, the three window-list overrides return their input unchanged, and
the main-switcher scan marks no index. -/
theorem nullSettings_hides_nothing {W : Type} (tracker : W → Option App) :
    _getHiddenApps none = []
    ∧ (∀ app, _shouldHideApp none app = false)
    ∧ (∀ w, _shouldHideWindow none tracker w = false)
    ∧ (∀ windows, WindowSwitcherPopup._getWindowList none tracker windows = windows)
    ∧ (∀ windows, WindowCyclerPopup._getWindows none tracker windows = windows)
    ∧ (∀ windows, GroupCyclerPopup._getWindows none tracker windows = windows)
    ∧ (∀ items, indicesToRemove (_getHiddenApps none) items = []) := by
  have hw : ∀ w, _shouldHideWindow none tracker w = false := by
    intro w
    rfl
  refine ⟨rfl, fun app => rfl, hw, ?_, ?_, ?_, ?_⟩
  · intro windows
    simp [WindowSwitcherPopup._getWindowList, hw]
  · intro windows
    simp [WindowCyclerPopup._getWindows, hw]
  · intro windows
    simp [GroupCyclerPopup._getWindows, hw]
  · intro items
    simp [indicesToRemove, _getHiddenApps, iconMarked_nil]

/-- C7: when the persisted hidden set is empty, both predicate forms return
`false` for every candidate; the window form is quantified over every
tracker and window, so the result is independent of any tracker
consultation, and the app form over every handle. -/
theorem emptyHidden_no_inspection (settings : Option (List String))
    (h : _getHiddenApps settings = []) :
    (∀ app, _shouldHideApp settings app = false)
    ∧ (∀ {W : Type} (tracker : W → Option App) (w : W),
        _shouldHideWindow settings tracker w = false) := by
  constructor
  · intro app
    simp [_shouldHideApp, h]
  · intro W tracker w
    simp [_shouldHideWindow, h]

/-- Witness for C7 at the concrete empty store. -/
theorem emptyHidden_no_inspection_witness :
    _getHiddenApps (some []) = []
    ∧ _shouldHideApp (some []) (some ⟨"org.gnome.Calculator.desktop"⟩) = false
    ∧ _shouldHideWindow (some [])
        (fun _ : Nat => some ⟨"org.gnome.Calculator.desktop"⟩) 0 = false :=
  ⟨rfl,
   (emptyHidden_no_inspection (some []) rfl).1 (some ⟨"org.gnome.Calculator.desktop"⟩),
   (emptyHidden_no_inspection (some []) rfl).2
     (fun _ : Nat => some ⟨"org.gnome.Calculator.desktop"⟩) 0⟩

/-- C8: each window-list override is idempotent in its list argument:
filtering an already-filtered list with the same hidden set returns it
unchanged. -/
theorem windowList_filter_idempotent {W : Type} (settings : Option (List String))
    (tracker : W → Option App) (windows : List W) :
    WindowSwitcherPopup._getWindowList settings tracker
        (WindowSwitcherPopup._getWindowList settings tracker windows)
      = WindowSwitcherPopup._getWindowList settings tracker windows
    ∧ WindowCyclerPopup._getWindows settings tracker
        (WindowCyclerPopup._getWindows settings tracker windows)
      = WindowCyclerPopup._getWindows settings tracker windows
    ∧ GroupCyclerPopup._getWindows settings tracker
        (GroupCyclerPopup._getWindows settings tracker windows)
      = GroupCyclerPopup._getWindows settings tracker windows := by
  refine ⟨?_, ?_, ?_⟩ <;>
    simp [WindowSwitcherPopup._getWindowList, WindowCyclerPopup._getWindows,
      GroupCyclerPopup._getWindows, List.filter_filter]

/-- C9: starting from a duplicate-free hidden list, both preferences-panel
mutations keep it duplicate-free; toggling on appends exactly when the id is
absent and is a no-op when present; removing an id not present is a no-op. -/
theorem hiddenApps_nodup_preserved (H : List String) (appId : String)
    (h : H.Nodup) :
    (∀ isActive, (_onAppToggled H appId isActive).Nodup)
    ∧ (_removeHiddenApp H appId).Nodup
    ∧ (appId ∉ H → _removeHiddenApp H appId = H)
    ∧ (appId ∈ H → _onAppToggled H appId true = H)
    ∧ (appId ∉ H → _onAppToggled H appId true = H ++ [appId]) := by
  have hc : H.contains appId = decide (appId ∈ H) := List.elem_eq_mem appId H
  refine ⟨?_, List.Nodup.filter _ h, ?_, ?_, ?_⟩
  · intro isActive
    by_cases hm : appId ∈ H
    · have hct : H.contains appId = true := by
        rw [hc]
        exact decide_eq_true hm
      cases isActive <;> simp [_onAppToggled, hct, hm]
      · exact List.Nodup.filter _ h
      · exact h
    · have hcf : H.contains appId = false := by
        rw [hc]
        exact decide_eq_false hm
      cases isActive <;> simp [_onAppToggled, hcf, hm]
      · exact h
      · simp [List.nodup_append, h, hm]
  · intro hm
    rw [_removeHiddenApp, List.filter_eq_self]
    intro a ha
    simp only [bne_iff_ne, ne_eq]
    exact fun heq => hm (heq ▸ ha)
  · intro hm
    simp [_onAppToggled, hc, hm]
  · intro hm
    simp [_onAppToggled, hc, hm]

/-- Witness for C9 at concrete lists, covering the present and the absent
id. -/
theorem hiddenApps_nodup_preserved_witness :
    (["org.gnome.Calculator.desktop"] : List String).Nodup
    ∧ (_onAppToggled ["org.gnome.Calculator.desktop"] "org.gnome.Files.desktop" true).Nodup
    ∧ (_removeHiddenApp ["org.gnome.Calculator.desktop"] "org.gnome.Files.desktop").Nodup
    ∧ _removeHiddenApp ["org.gnome.Calculator.desktop"] "org.gnome.Files.desktop"
        = ["org.gnome.Calculator.desktop"]
    ∧ _onAppToggled ["org.gnome.Calculator.desktop"] "org.gnome.Calculator.desktop" true
        = ["org.gnome.Calculator.desktop"]
    ∧ _onAppToggled ["org.gnome.Calculator.desktop"] "org.gnome.Files.desktop" true
        = ["org.gnome.Calculator.desktop", "org.gnome.Files.desktop"] :=
  ⟨by decide,
   (hiddenApps_nodup_preserved ["org.gnome.Calculator.desktop"]
     "org.gnome.Files.desktop" (by decide)).1 true,
   (hiddenApps_nodup_preserved ["org.gnome.Calculator.desktop"]
     "org.gnome.Files.desktop" (by decide)).2.1,
   (hiddenApps_nodup_preserved ["org.gnome.Calculator.desktop"]
     "org.gnome.Files.desktop" (by decide)).2.2.1 (by decide),
   (hiddenApps_nodup_preserved ["org.gnome.Calculator.desktop"]
     "org.gnome.Calculator.desktop" (by decide)).2.2.2.1 (by decide),
   (hiddenApps_nodup_preserved ["org.gnome.Calculator.desktop"]
     "org.gnome.Files.desktop" (by decide)).2.2.2.2 (by decide)⟩

/-- C10: the fail-open behavior on unresolvable handles also holds at the
application interface: `_shouldHideApp` returns `false` on a null app handle
for every settings value, and the main-switcher scan never marks an index
whose slot is null or whose icon has a null `app` reference, so such entries
are never removed. -/
theorem absentApp_never_hidden (settings : Option (List String))
    (hiddenApps : List String) (items : List (Option AppIcon)) (i : Nat)
    (h : (items.getD i none).bind AppIcon.app = none) :
    _shouldHideApp settings none = false
    ∧ i ∉ indicesToRemove hiddenApps items := by
  constructor
  · simp [_shouldHideApp]
  · intro hmem
    rw [indicesToRemove] at hmem
    rcases List.mem_filter.mp hmem with ⟨-, hmark⟩
    cases hslot : items.getD i none with
    | none =>
      rw [hslot] at hmark
      simp [iconMarked] at hmark
    | some appIcon =>
      rw [hslot] at h hmark
      obtain ⟨app⟩ := appIcon
      cases happ : app with
      | none =>
        rw [happ] at hmark
        simp [iconMarked] at hmark
      | some a =>
        rw [happ] at h
        simp [Option.bind] at h

/-- Witness for C10 at a concrete slot holding an icon with a null app
reference. -/
theorem absentApp_never_hidden_witness :
    ((([some ⟨none⟩] : List (Option AppIcon)).getD 0 none).bind AppIcon.app = none)
    ∧ _shouldHideApp (some ["org.gnome.Calculator.desktop"]) none = false
    ∧ 0 ∉ indicesToRemove ["org.gnome.Calculator.desktop"] [some ⟨none⟩] :=
  ⟨rfl,
   (absentApp_never_hidden (some ["org.gnome.Calculator.desktop"])
     ["org.gnome.Calculator.desktop"] [some ⟨none⟩] 0 rfl).1,
   (absentApp_never_hidden (some ["org.gnome.Calculator.desktop"])
     ["org.gnome.Calculator.desktop"] [some ⟨none⟩] 0 rfl).2⟩
